import Mathlib

/-!
Verification development for the text-corpus preparation utility
(`prec/textutils.py`).  The Python module is shallowly embedded below:
pure functions of the module become Lean functions, the generator
`Documents.__iter__` becomes an explicit fold that also returns the log
entries it would print, and the gensim `Dictionary` object becomes a list
of `(token, id, docfreq)` entries.  Third-party primitives used by the
module (nltk tokenizers, the English stopword list, Python's
`string.punctuation`) are modelled by executable Lean functions that are
faithful on the ASCII inputs considered here; each model is documented at
its definition.
-/

namespace TextUtils

/- ---------------------------------------------------------------------
   Generic list helpers (splitting, trimming, joining, insertion sort).
   --------------------------------------------------------------------- -/

/-- Split a character list at every occurrence of the character `c`
(the separators are dropped; empty segments are kept, as in Python's
`str.split(sep)`). -/
def splitOnChar (c : Char) : List Char → List (List Char)
  | [] => [[]]
  | x :: xs =>
    if x = c then
      [] :: splitOnChar c xs
    else
      match splitOnChar c xs with
      | [] => [[x]]
      | g :: gs => (x :: g) :: gs

/-- Remove leading and trailing whitespace characters (model of Python's
`str.strip`). -/
def trimChars (cs : List Char) : List Char :=
  ((cs.dropWhile Char.isWhitespace).reverse.dropWhile Char.isWhitespace).reverse

/-- Join a list of strings with a single underscore between consecutive
elements: model of the Python underscore join as used at line 137 of
`textutils.py`. -/
def joinUnderscore : List String → String
  | [] => ""
  | [w] => w
  | w :: ws => w ++ "_" ++ joinUnderscore ws

/-- Insert `a` into `l` before the first element `b` with `le a b`. -/
def insertLe {α : Type} (le : α → α → Bool) (a : α) : List α → List α
  | [] => [a]
  | b :: bs => if le a b then a :: b :: bs else b :: insertLe le a bs

/-- Insertion sort with respect to the boolean relation `le`; model of
Python's `sorted` (any correct comparison sort produces the same list on
duplicate-free keys, which is the only way it is used below). -/
def sortLe {α : Type} (le : α → α → Bool) : List α → List α
  | [] => []
  | a :: as => insertLe le a (sortLe le as)

/-- Position of the first occurrence of `a` in a list of naturals
(used to model gensim's `compactify` id remapping). -/
def idxOf (a : Nat) : List Nat → Nat
  | [] => 0
  | b :: bs => if a = b then 0 else idxOf a bs + 1

/- ---------------------------------------------------------------------
   Models of the third-party primitives used by `textutils.py`.
   --------------------------------------------------------------------- -/

/-- Model of Python's `string.punctuation` constant: the 32 ASCII
punctuation characters.  The double quote, apostrophe, backslash,
backquote and brace characters are spelled via their code points. -/
def punctuationChars : List Char :=
  ['!', Char.ofNat 34, '#', '$', '%', '&', Char.ofNat 39, '(', ')', '*',
   '+', ',', '-', '.', '/', ':', ';', '<', '=', '>', '?', '@', '[',
   Char.ofNat 92, ']', '^', '_', Char.ofNat 96, Char.ofNat 123, '|',
   Char.ofNat 125, '~']

/-- Model of `sent.translate(str.maketrans('', '', string.punctuation))`
(line 130 of `textutils.py`): delete every punctuation character. -/
def removePunct (s : String) : String :=
  String.mk (s.data.filter (fun c => decide (c ∉ punctuationChars)))

/-- Model of Python's `str.lower` for the ASCII inputs considered here. -/
def lowerStr (s : String) : String :=
  String.mk (s.data.map Char.toLower)

/-- Model of Python's `str.replace(old, new)` for a one-character `old`
and empty `new`, as in `text_string.replace('\n','')`. -/
def removeNewlines (s : String) : String :=
  String.mk (s.data.filter (fun c => decide (c ≠ Char.ofNat 10)))

/-- Model of Python's `str.strip()`. -/
def stripStr (s : String) : String :=
  String.mk (trimChars s.data)

/-- Model of `nltk.tokenize.sent_tokenize` adequate for ASCII text whose
sentences are terminated by a period: split at periods, trim the pieces,
drop empty pieces, and keep the terminating period attached to each
sentence. -/
def sentTokenizeModel (s : String) : List String :=
  (((splitOnChar '.' s.data).map trimChars).filter
      (fun cs => decide (cs ≠ []))).map (fun cs => String.mk (cs ++ ['.']))

/-- Model of `nltk.word_tokenize` adequate for text that has already had
its punctuation removed: split on spaces and drop empty pieces. -/
def wordTokenizeModel (s : String) : List String :=
  ((splitOnChar ' ' s.data).filter (fun cs => decide (cs ≠ []))).map String.mk

/-- Model of `nltk.corpus.stopwords.words('english')`: the classic
127-word English stopword list (the nltk additions containing an
apostrophe are irrelevant to the inputs considered here, where every
apostrophe would already have been stripped as punctuation). -/
def englishStopwords : List String :=
  ["i", "me", "my", "myself", "we", "our", "ours", "ourselves", "you",
   "your", "yours", "yourself", "yourselves", "he", "him", "his",
   "himself", "she", "her", "hers", "herself", "it", "its", "itself",
   "they", "them", "their", "theirs", "themselves", "what", "which",
   "who", "whom", "this", "that", "these", "those", "am", "is", "are",
   "was", "were", "be", "been", "being", "have", "has", "had", "having",
   "do", "does", "did", "doing", "a", "an", "the", "and", "but", "if",
   "or", "because", "as", "until", "while", "of", "at", "by", "for",
   "with", "about", "against", "between", "into", "through", "during",
   "before", "after", "above", "below", "to", "from", "up", "down",
   "in", "out", "on", "off", "over", "under", "again", "further",
   "then", "once", "here", "there", "when", "where", "why", "how",
   "all", "any", "both", "each", "few", "more", "most", "other",
   "some", "such", "no", "nor", "not", "only", "own", "same", "so",
   "than", "too", "very", "s", "t", "can", "will", "just", "don",
   "should", "now"]

/-- Model of `nltk.util.ngrams(sequence, n, pad_left, pad_right,
left_pad_symbol, right_pad_symbol)`: optionally pad with `n - 1` symbols
on each requested side, then take every contiguous window of length `n`. -/
def ngramsNltk (sequence : List String) (n : Nat) (padRight padLeft : Bool)
    (leftPadSymbol rightPadSymbol : String) : List (List String) :=
  let padded :=
    (if padLeft then List.replicate (n - 1) leftPadSymbol else []) ++
      sequence ++
      (if padRight then List.replicate (n - 1) rightPadSymbol else [])
  (List.range (padded.length + 1 - n)).map (fun i => (padded.drop i).take n)

/- ---------------------------------------------------------------------
   The tokenizer: `Documents.string2tokens` (lines 98-151).
   --------------------------------------------------------------------- -/

/-- The inner loop of `string2tokens` (lines 132-145): for every gram
order `n` from 1 to `N`, append the underscore-joined `n`-grams of the
sentence's token list. -/
def ngramExpandSentence (tokens : List String) (N : Nat) (padRight padLeft : Bool)
    (leftPadSymbol rightPadSymbol : String) : List String :=
  (List.range' 1 N).foldl
    (fun acc n =>
      acc ++ (ngramsNltk tokens n padRight padLeft leftPadSymbol rightPadSymbol).map
        joinUnderscore)
    []

/-- The per-sentence preprocessing of `string2tokens` (lines 128-131):
strip punctuation, lowercase, word-tokenize, drop stopwords. -/
def sentenceTokens (wordTok : String → List String) (stopwords : List String)
    (sent : String) : List String :=
  (wordTok (lowerStr (removePunct sent))).filter (fun t => decide (t ∉ stopwords))

/-- `Documents.string2tokens` computes both return shapes in one pass over
the sentences: the flat accumulator `ngram_tokens` and the nested
accumulator `ngram_tokens_sents`.  The function is parameterized by the
two nltk tokenizers and the stopword list it consumes. -/
def string2tokensBoth (sentTok wordTok : String → List String)
    (stopwords : List String) (textString : String) (N : Nat)
    (padRight padLeft : Bool) (leftPadSymbol rightPadSymbol : String) :
    List String × List (List String) :=
  (sentTok (stripStr (removeNewlines textString))).foldl
    (fun acc sent =>
      let s := ngramExpandSentence (sentenceTokens wordTok stopwords sent) N
        padRight padLeft leftPadSymbol rightPadSymbol
      (acc.1 ++ s, acc.2 ++ [s]))
    ([], [])

/-- The `keep_sents=False` return of `string2tokens` (line 151). -/
def string2tokensFlat (sentTok wordTok : String → List String)
    (stopwords : List String) (textString : String) (N : Nat)
    (padRight padLeft : Bool) (leftPadSymbol rightPadSymbol : String) :
    List String :=
  (string2tokensBoth sentTok wordTok stopwords textString N padRight padLeft
    leftPadSymbol rightPadSymbol).1

/-- The `keep_sents=True` return of `string2tokens` (line 149). -/
def string2tokensSents (sentTok wordTok : String → List String)
    (stopwords : List String) (textString : String) (N : Nat)
    (padRight padLeft : Bool) (leftPadSymbol rightPadSymbol : String) :
    List (List String) :=
  (string2tokensBoth sentTok wordTok stopwords textString N padRight padLeft
    leftPadSymbol rightPadSymbol).2

/- ---------------------------------------------------------------------
   The document stream: `Documents.__iter__` (lines 54-81).
   --------------------------------------------------------------------- -/

/-- State-passing embedding of the generator `Documents.__iter__`.  The
tokenizer may fail (in the source, tokenization of a line may raise, e.g.
a `UnicodeDecodeError`), which is embedded as an `Except`-valued
function.  The fold carries the `self.counter` field and returns the
yielded documents together with the `(counter, message)` pairs written to
the error log by the `except` branch. -/
def documentsIterAux (tok : String → Except String (List String)) :
    List String → Nat → List (List String) × List (Nat × String)
  | [], _ => ([], [])
  | line :: rest, counter =>
    match tok line with
    | Except.ok toks =>
      let r := documentsIterAux tok rest (counter + 1)
      (toks :: r.1, r.2)
    | Except.error e =>
      let r := documentsIterAux tok rest (counter + 1)
      (([] : List String) :: r.1, (counter, e) :: r.2)

/-- Iterating a `Documents` object whose counter starts at 0 (as set in
`__init__`). -/
def documentsIter (tok : String → Except String (List String))
    (lines : List String) : List (List String) × List (Nat × String) :=
  documentsIterAux tok lines 0

/-- The sequence of documents yielded by the stream. -/
def docStream (tok : String → Except String (List String))
    (lines : List String) : List (List String) :=
  (documentsIter tok lines).1

/-- The failure log entries emitted by the stream. -/
def docLog (tok : String → Except String (List String))
    (lines : List String) : List (Nat × String) :=
  (documentsIter tok lines).2

/- ---------------------------------------------------------------------
   The gensim `Dictionary` object, embedded as a list of entries.
   --------------------------------------------------------------------- -/

/-- One vocabulary entry: a surface-form token, its integer id
(`token2id`), and its document frequency (`dfs`). -/
structure DictEntry where
  token : String
  id : Nat
  docfreq : Nat
deriving DecidableEq, Repr

/-- A gensim `Dictionary` is embedded as the list of its entries, in id
order for freshly built dictionaries. -/
abbrev Dictionary := List DictEntry

/-- Whether the dictionary contains the token `t` (membership in
`token2id`). -/
def hasToken (d : Dictionary) (t : String) : Bool :=
  d.any (fun e => decide (e.token = t))

/-- The entry for token `t`, if any. -/
def entryFor (d : Dictionary) (t : String) : Option DictEntry :=
  d.find? (fun e => decide (e.token = t))

/-- The id recorded for token `t` (`dictionary.token2id[token]`); the
call sites below only use it on tokens present in the dictionary. -/
def token2id (d : Dictionary) (t : String) : Nat :=
  ((entryFor d t).map (fun e => e.id)).getD 0

/-- Document frequency recorded for token `t` (0 when absent). -/
def dictDf (d : Dictionary) (t : String) : Nat :=
  ((entryFor d t).map (fun e => e.docfreq)).getD 0

/-- The token recorded for id `i` (`dictionary[ngram_id]`); the call
sites below only use it on ids present in the dictionary. -/
def id2token (d : Dictionary) (i : Nat) : String :=
  ((d.find? (fun e => decide (e.id = i))).map (fun e => e.token)).getD ""

/-- The list of surface-form tokens of the dictionary, in entry order. -/
def tokensOf (d : Dictionary) : List String :=
  d.map (fun e => e.token)

/-- The list of assigned ids of the dictionary, in entry order. -/
def idsOf (d : Dictionary) : List Nat :=
  d.map (fun e => e.id)

/-- The distinct tokens of `doc` that are not yet in the dictionary, in
sorted order (gensim sorts the missing tokens before assigning ids). -/
def missingOf (d : Dictionary) (doc : List String) : List String :=
  sortLe (fun s t => decide (s ≤ t))
    (doc.dedup.filter (fun t => ! hasToken d t))

/-- Fresh entries for the missing tokens: consecutive ids starting at
`base`, document frequency initialized to zero. -/
def freshEntries (ms : List String) (base : Nat) : List DictEntry :=
  ms.enum.map (fun p => DictEntry.mk p.2 (base + p.1) 0)

/-- Increment the document frequency of an entry whose token occurs in
the (dedupped) document. -/
def bumpIfInDoc (uniq : List String) (e : DictEntry) : DictEntry :=
  if e.token ∈ uniq then { e with docfreq := e.docfreq + 1 } else e

/-- Processing one document during `corpora.Dictionary(docs)`
construction (gensim `doc2bow` with `allow_update=True`): the distinct
tokens of the document that are not yet present are assigned the next
free ids, in sorted order of the token string, and the document
frequency of every distinct token of the document is incremented by
one. -/
def addDocument (d : Dictionary) (doc : List String) : Dictionary :=
  (d ++ freshEntries (missingOf d doc) d.length).map (bumpIfInDoc doc.dedup)

/-- `corpora.Dictionary(docs)` (line 167): fold `addDocument` over the
stream of documents, starting from the empty dictionary. -/
def dictFromDocs (docs : List (List String)) : Dictionary :=
  docs.foldl addDocument []

/-- gensim `Dictionary.filter_tokens(bad_ids)`: drop every entry whose
id is listed. -/
def filter_tokens (d : Dictionary) (badIds : List Nat) : Dictionary :=
  d.filter (fun e => decide (e.id ∉ badIds))

/-- gensim `Dictionary.compactify`: remap each id to its position in the
sorted list of the currently assigned ids, making ids contiguous from
zero. -/
def compactify (d : Dictionary) : Dictionary :=
  let sortedIds := sortLe (fun a b => decide (a ≤ b)) (d.map (fun e => e.id))
  d.map (fun e => { e with id := idxOf e.id sortedIds })

/-- The test `re.match('^[A-Za-z_]*$', token)` of line 171: every
character of the token is an ASCII letter or an underscore. -/
def matchAlphaUnderscore (t : String) : Bool :=
  t.data.all (fun c => c.isAlpha || decide (c = '_'))

/-- Number of documents of `docs` in which the token `t` occurs: the
reference meaning of document frequency. -/
def dfCount (docs : List (List String)) (t : String) : Nat :=
  (docs.filter (fun doc => decide (t ∈ doc))).length

/-- The pruning part of `vocabulary` (lines 167-178), applied to the
already-tokenized documents: build the dictionary, collect the ids of
non-alphabetic tokens and of tokens with document frequency at or below
`min_term_freq`, drop them, and compact the ids. -/
def vocabulary_dict (docs : List (List String)) (minTermFreq : Nat) :
    Dictionary :=
  let dictionary := dictFromDocs docs
  let noncharIds := (dictionary.filter
    (fun e => ! matchAlphaUnderscore e.token)).map (fun e => e.id)
  let lowfreqIds := (dictionary.filter
    (fun e => decide (e.docfreq ≤ minTermFreq))).map (fun e => e.id)
  compactify (filter_tokens dictionary (lowfreqIds ++ noncharIds))

/-- `vocabulary(text_iter_obj, min_term_freq, ...)` (lines 155-178): the
raw lines are run through the `Documents` stream (whose per-line
tokenizer is abstracted as the fallible function `tok`) and the
resulting documents feed dictionary construction and pruning. -/
def vocabulary (tok : String → Except String (List String))
    (lines : List String) (minTermFreq : Nat) : Dictionary :=
  vocabulary_dict (docStream tok lines) minTermFreq

/-- The `by_key=False` branch of `sub_vocabulary` (lines 190-197): the
tokens outside the allow-list are looked up in `token2id` and their ids
are dropped, then ids are compacted. -/
def sub_vocabulary (d : Dictionary) (ngramsList : List String) :
    Dictionary :=
  let removeTokens := (d.map (fun e => e.token)).filter
    (fun t => decide (t ∉ ngramsList))
  let removeIds := removeTokens.map (token2id d)
  compactify (filter_tokens d removeIds)

/-- The `by_key=True` branch of `sub_vocabulary` (lines 187-189, 196-197):
the keys (ids) outside the allow-list are dropped, then ids are
compacted. -/
def sub_vocabulary_by_key (d : Dictionary) (idsList : List Nat) :
    Dictionary :=
  let removeIds := (d.map (fun e => e.id)).filter
    (fun i => decide (i ∉ idsList))
  compactify (filter_tokens d removeIds)

/-- State-passing embedding of the full `sub_vocabulary` call in the
`by_key=False` mode: `filter_tokens` and `compactify` mutate the
dictionary object in place and the function returns that same object, so
the pair holds (state of the caller's dictionary after the call,
returned dictionary). -/
def sub_vocabulary_st (d : Dictionary) (ngramsList : List String) :
    Dictionary × Dictionary :=
  (sub_vocabulary d ngramsList, sub_vocabulary d ngramsList)

/- ---------------------------------------------------------------------
   Corpus utilities: `merge_documents` and `corpus_histogram`.
   --------------------------------------------------------------------- -/

/-- Model of `np.argsort` on the document-id list: the indices of the
list arranged so that the corresponding values are ascending. -/
def argsort (docsIds : List Int) : List Nat :=
  (sortLe (fun p q : Nat × Int => decide (p.2 ≤ q.2)) docsIds.enum).map
    (fun p => p.1)

/-- `merge_documents(corpus, dictionary, docs_ids)` (lines 221-250): the
live code computes the sorted index order, the reordered id list and the
reordered sparse matrix, prints the matrix shape, and falls off the end
of the function — the merging/summing steps are commented out, so the
function returns Python's `None`, embedded as `none`. -/
def merge_documents (corpus : List (List (Nat × Nat))) (dictionary : Dictionary)
    (docsIds : List Int) : Option (List Int × List (List (Nat × Nat))) :=
  let orderedIndice := argsort docsIds
  let reorderedDocsIds := orderedIndice.map (fun i => docsIds.getD i 0)
  let reorderedSparseCorpus := orderedIndice.map (fun i => corpus.getD i [])
  none

/-- The per-document descending sort by value of line 260
(`sorted(doc, key=lambda x: -x[1])`); weights are embedded as integers,
which is immaterial to the claims settled here. -/
def sortDocByValueDesc (doc : List (Nat × Int)) : List (Nat × Int) :=
  sortLe (fun a b : Nat × Int => decide (b.2 ≤ a.2)) doc

/-- Appending one value to the distribution map entry of a token
(`ngram_dist[dictionary[ngram_id]].append(tfidf_val)` on a defaultdict),
embedded as an association list keyed by token in first-insertion
order. -/
def distAppend (dist : List (String × List Int)) (k : String) (v : Int) :
    List (String × List Int) :=
  if dist.any (fun p => decide (p.1 = k)) then
    dist.map (fun p => if p.1 = k then (p.1, p.2 ++ [v]) else p)
  else
    dist ++ [(k, [v])]

/-- The distribution-building loop of lines 264-266. -/
def buildNgramDist (d : Dictionary) (sortedCorpus : List (List (Nat × Int))) :
    List (String × List Int) :=
  sortedCorpus.foldl
    (fun dist doc => doc.foldl
      (fun dist2 p => distAppend dist2 (id2token d p.1) p.2) dist)
    []

/-- `corpus_histogram(corpus, dictionary, sort_by, show=False, N)`
(lines 253-299).  The module is Python 3 (it uses `str.maketrans` and
`print(..., file=sys.stderr)`, both Python-3-only), and in Python 3 a
`defaultdict` has no `iteritems` attribute; line 269 therefore raises
`AttributeError` on every call, before any result can be returned.  The
raise is embedded as an `Except.error`. -/
def corpus_histogram (corpus : List (List (Nat × Int))) (dictionary : Dictionary)
    (sortBy : String) (N : Nat) :
    Except String (List (String × List Int) × List (String × Int)) :=
  let sortedCorpus := corpus.map sortDocByValueDesc
  let ngramDist := buildNgramDist dictionary sortedCorpus
  Except.error "AttributeError: defaultdict object has no attribute iteritems"

/- ---------------------------------------------------------------------
   Lemmas about the generic helpers.
   --------------------------------------------------------------------- -/

theorem insertLe_perm {α : Type} (le : α → α → Bool) (a : α) (l : List α) :
    List.Perm (insertLe le a l) (a :: l) := by
  induction l with
  | nil => exact List.Perm.refl _
  | cons b bs ih =>
    simp only [insertLe]
    cases h : le a b
    · simp only [Bool.false_eq_true, if_false]
      exact (ih.cons b).trans (List.Perm.swap a b bs)
    · simp only [if_true]
      exact List.Perm.refl _

theorem sortLe_perm {α : Type} (le : α → α → Bool) (l : List α) :
    List.Perm (sortLe le l) l := by
  induction l with
  | nil => exact List.Perm.refl _
  | cons a as ih =>
    exact (insertLe_perm le a (sortLe le as)).trans (ih.cons a)

theorem idxOf_cons_self (a : Nat) (l : List Nat) : idxOf a (a :: l) = 0 := by
  simp [idxOf]

theorem idxOf_cons_ne (a b : Nat) (l : List Nat) (h : a ≠ b) :
    idxOf a (b :: l) = idxOf a l + 1 := by
  simp [idxOf, h]

theorem map_idxOf_self (l : List Nat) (h : l.Nodup) :
    l.map (fun a => idxOf a l) = List.range l.length := by
  induction l with
  | nil => simp
  | cons a t ih =>
    rw [List.nodup_cons] at h
    obtain ⟨ha, ht⟩ := h
    have h2 : t.map (fun x => idxOf x (a :: t)) = t.map (fun x => idxOf x t + 1) := by
      apply List.map_congr_left
      intro x hx
      have hxa : x ≠ a := fun hh => ha (hh ▸ hx)
      simp [idxOf, hxa]
    have h3 : t.map (fun x => idxOf x t + 1) =
        (t.map (fun x => idxOf x t)).map Nat.succ := by
      rw [List.map_map]
      rfl
    rw [List.map_cons, h2, h3, ih ht, List.length_cons,
      List.range_succ_eq_map, idxOf_cons_self]

/- ---------------------------------------------------------------------
   Lemmas about the dictionary embedding.
   --------------------------------------------------------------------- -/

theorem hasToken_iff (d : Dictionary) (t : String) :
    hasToken d t = true ↔ ∃ e ∈ d, e.token = t := by
  simp [hasToken, List.any_eq_true]

theorem hasToken_eq_mem_tokensOf (d : Dictionary) (t : String) :
    hasToken d t = true ↔ t ∈ tokensOf d := by
  simp [hasToken_iff, tokensOf, List.mem_map]

theorem entryFor_isSome (d : Dictionary) (t : String) :
    (entryFor d t).isSome = true ↔ hasToken d t = true := by
  simp [entryFor, List.find?_isSome, hasToken, List.any_eq_true]

theorem entryFor_eq_self (d : Dictionary) (htok : (tokensOf d).Nodup)
    {e : DictEntry} (he : e ∈ d) : entryFor d e.token = some e := by
  induction d with
  | nil => cases he
  | cons f rest ih =>
    rw [tokensOf, List.map_cons, List.nodup_cons] at htok
    obtain ⟨hf, hrest⟩ := htok
    rcases List.mem_cons.mp he with rfl | he2
    · simp [entryFor, List.find?_cons]
    · have hne : f.token ≠ e.token := by
        intro hh
        exact hf (hh ▸ List.mem_map.mpr ⟨e, he2, rfl⟩)
      have : entryFor rest e.token = some e := ih hrest he2
      simpa [entryFor, List.find?_cons, hne] using this

theorem find?_token_map (l : List DictEntry) (g : DictEntry → DictEntry)
    (hg : ∀ e, (g e).token = e.token) (t : String) :
    (l.map g).find? (fun e => decide (e.token = t)) =
      (l.find? (fun e => decide (e.token = t))).map g := by
  induction l with
  | nil => rfl
  | cons f rest ih =>
    simp only [List.map_cons, List.find?_cons, hg f]
    cases h : decide (f.token = t)
    · simpa [h] using ih
    · simp [h]

theorem bumpIfInDoc_token (uniq : List String) (e : DictEntry) :
    (bumpIfInDoc uniq e).token = e.token := by
  unfold bumpIfInDoc
  split <;> rfl

theorem bumpIfInDoc_id (uniq : List String) (e : DictEntry) :
    (bumpIfInDoc uniq e).id = e.id := by
  unfold bumpIfInDoc
  split <;> rfl

theorem bumpIfInDoc_docfreq (uniq : List String) (e : DictEntry) :
    (bumpIfInDoc uniq e).docfreq =
      e.docfreq + (if e.token ∈ uniq then 1 else 0) := by
  unfold bumpIfInDoc
  split <;> simp [*]

theorem mem_missingOf (d : Dictionary) (doc : List String) (t : String) :
    t ∈ missingOf d doc ↔ t ∈ doc ∧ hasToken d t = false := by
  rw [missingOf, (sortLe_perm _ _).mem_iff, List.mem_filter, List.mem_dedup]
  simp

theorem nodup_missingOf (d : Dictionary) (doc : List String) :
    (missingOf d doc).Nodup := by
  exact (sortLe_perm _ _).symm.nodup ((List.nodup_dedup doc).filter _)

theorem tokensOf_freshEntries (ms : List String) (base : Nat) :
    tokensOf (freshEntries ms base) = ms := by
  rw [tokensOf, freshEntries, List.map_map]
  exact List.enum_map_snd ms

theorem idsOf_freshEntries (ms : List String) (base : Nat) :
    idsOf (freshEntries ms base) = List.range' base ms.length := by
  rw [idsOf, freshEntries, List.map_map, List.range'_eq_map_range]
  have : ((fun e => DictEntry.id e) ∘ fun p : Nat × String =>
      DictEntry.mk p.2 (base + p.1) 0) = (fun x => base + x) ∘ Prod.fst := rfl
  rw [this, ← List.map_map, List.enum_map_fst]

theorem docfreq_freshEntries (ms : List String) (base : Nat)
    {e : DictEntry} (he : e ∈ freshEntries ms base) : e.docfreq = 0 := by
  rw [freshEntries, List.mem_map] at he
  obtain ⟨p, _, rfl⟩ := he
  rfl

theorem length_freshEntries (ms : List String) (base : Nat) :
    (freshEntries ms base).length = ms.length := by
  rw [freshEntries, List.length_map, List.enum_length]

theorem tokensOf_addDocument (d : Dictionary) (doc : List String) :
    tokensOf (addDocument d doc) = tokensOf d ++ missingOf d doc := by
  rw [addDocument, tokensOf, List.map_map]
  have hc : ((fun e => DictEntry.token e) ∘ bumpIfInDoc doc.dedup) =
      fun e => e.token := by
    funext e
    exact bumpIfInDoc_token _ e
  rw [hc, List.map_append]
  show tokensOf d ++ tokensOf (freshEntries (missingOf d doc) d.length) = _
  rw [tokensOf_freshEntries]

theorem idsOf_addDocument (d : Dictionary) (doc : List String) :
    idsOf (addDocument d doc) =
      idsOf d ++ List.range' d.length (missingOf d doc).length := by
  rw [addDocument, idsOf, List.map_map]
  have hc : ((fun e => DictEntry.id e) ∘ bumpIfInDoc doc.dedup) =
      fun e => e.id := by
    funext e
    exact bumpIfInDoc_id _ e
  rw [hc, List.map_append]
  show idsOf d ++ idsOf (freshEntries (missingOf d doc) d.length) = _
  rw [idsOf_freshEntries]

theorem length_addDocument (d : Dictionary) (doc : List String) :
    (addDocument d doc).length = d.length + (missingOf d doc).length := by
  rw [addDocument, List.length_map, List.length_append, length_freshEntries]

/-- The construction invariant of a gensim dictionary: the ids are
exactly `0, 1, ..., length - 1` in entry order, and the tokens are
pairwise distinct. -/
def DictInv (d : Dictionary) : Prop :=
  idsOf d = List.range d.length ∧ (tokensOf d).Nodup

theorem dictInv_addDocument (d : Dictionary) (doc : List String)
    (h : DictInv d) : DictInv (addDocument d doc) := by
  constructor
  · rw [idsOf_addDocument, length_addDocument, h.1, List.range_add,
      List.range'_eq_map_range]
  · rw [tokensOf_addDocument]
    rw [List.nodup_append]
    refine ⟨h.2, nodup_missingOf d doc, ?_⟩
    rw [List.disjoint_left]
    intro t ht hm
    rw [mem_missingOf] at hm
    rw [← hasToken_eq_mem_tokensOf] at ht
    rw [ht] at hm
    cases hm.2

theorem dictInv_foldl (docs : List (List String)) :
    ∀ d : Dictionary, DictInv d → DictInv (docs.foldl addDocument d) := by
  induction docs with
  | nil => intro d h; exact h
  | cons doc rest ih =>
    intro d h
    exact ih _ (dictInv_addDocument d doc h)

theorem dictInv_dictFromDocs (docs : List (List String)) :
    DictInv (dictFromDocs docs) := by
  apply dictInv_foldl
  exact ⟨rfl, List.nodup_nil⟩

theorem entryFor_addDocument (d : Dictionary) (doc : List String) (t : String) :
    entryFor (addDocument d doc) t =
      ((entryFor d t).or
          (entryFor (freshEntries (missingOf d doc) d.length) t)).map
        (bumpIfInDoc doc.dedup) := by
  rw [addDocument, entryFor,
    find?_token_map _ (bumpIfInDoc doc.dedup) (bumpIfInDoc_token doc.dedup) t,
    List.find?_append]
  rfl

theorem dictDf_addDocument (d : Dictionary) (doc : List String) (t : String) :
    dictDf (addDocument d doc) t = dictDf d t + (if t ∈ doc then 1 else 0) := by
  rw [dictDf, entryFor_addDocument]
  cases h : entryFor d t with
  | some e =>
    have het : e.token = t := by
      simpa using List.find?_some h
    have hdf : dictDf d t = e.docfreq := by
      unfold dictDf
      rw [h]
      rfl
    show (bumpIfInDoc doc.dedup e).docfreq = dictDf d t + if t ∈ doc then 1 else 0
    rw [bumpIfInDoc_docfreq, het, hdf]
    simp only [List.mem_dedup]
  | none =>
    simp only [Option.none_or]
    have hd0 : dictDf d t = 0 := by
      unfold dictDf
      rw [h]
      rfl
    have hnod : hasToken d t = false := by
      cases hcase : hasToken d t
      · rfl
      · exfalso
        have hs := (entryFor_isSome d t).mpr hcase
        rw [h] at hs
        cases hs
    cases h2 : entryFor (freshEntries (missingOf d doc) d.length) t with
    | none =>
      have hnodoc : t ∉ doc := by
        intro hdoc
        have hm : t ∈ missingOf d doc := (mem_missingOf d doc t).mpr ⟨hdoc, hnod⟩
        have hsome : (entryFor (freshEntries (missingOf d doc) d.length) t).isSome = true := by
          rw [entryFor_isSome, hasToken_eq_mem_tokensOf, tokensOf_freshEntries]
          exact hm
        rw [h2] at hsome
        cases hsome
      simp [hd0, hnodoc]
    | some f =>
      have hf_mem : f ∈ freshEntries (missingOf d doc) d.length :=
        List.mem_of_find?_eq_some h2
      have hf0 : f.docfreq = 0 := docfreq_freshEntries _ _ hf_mem
      have hft : f.token = t := by
        simpa using List.find?_some h2
      have hmm : t ∈ missingOf d doc := by
        rw [← tokensOf_freshEntries (missingOf d doc) d.length]
        exact hft ▸ List.mem_map.mpr ⟨f, hf_mem, rfl⟩
      have hdoc : t ∈ doc := ((mem_missingOf d doc t).mp hmm).1
      show (bumpIfInDoc doc.dedup f).docfreq = dictDf d t + if t ∈ doc then 1 else 0
      rw [bumpIfInDoc_docfreq, hft, hf0, hd0]
      simp [List.mem_dedup, hdoc]

theorem dfCount_cons (doc : List String) (docs : List (List String)) (t : String) :
    dfCount (doc :: docs) t = (if t ∈ doc then 1 else 0) + dfCount docs t := by
  rw [dfCount, List.filter_cons]
  split
  · next hcond =>
    have : t ∈ doc := by simpa using hcond
    simp [this, dfCount, Nat.add_comm]
  · next hcond =>
    have : t ∉ doc := by simpa using hcond
    simp [this, dfCount]

theorem dictDf_foldl (docs : List (List String)) :
    ∀ (d : Dictionary) (t : String),
      dictDf (docs.foldl addDocument d) t = dictDf d t + dfCount docs t := by
  induction docs with
  | nil => intro d t; simp [dfCount]
  | cons doc rest ih =>
    intro d t
    rw [List.foldl_cons, ih, dictDf_addDocument, dfCount_cons]
    omega

theorem dictDf_dictFromDocs (docs : List (List String)) (t : String) :
    dictDf (dictFromDocs docs) t = dfCount docs t := by
  have h := dictDf_foldl docs [] t
  rw [dictFromDocs, h]
  have h0 : dictDf [] t = 0 := rfl
  rw [h0, Nat.zero_add]

theorem hasToken_addDocument_iff (d : Dictionary) (doc : List String) (t : String) :
    hasToken (addDocument d doc) t = true ↔ hasToken d t = true ∨ t ∈ doc := by
  rw [hasToken_eq_mem_tokensOf, tokensOf_addDocument, List.mem_append,
    ← hasToken_eq_mem_tokensOf, mem_missingOf]
  cases h : hasToken d t <;> simp [h]

theorem hasToken_foldl_iff (docs : List (List String)) :
    ∀ (d : Dictionary) (t : String),
      hasToken (docs.foldl addDocument d) t = true ↔
        hasToken d t = true ∨ ∃ doc ∈ docs, t ∈ doc := by
  induction docs with
  | nil => intro d t; simp
  | cons doc rest ih =>
    intro d t
    rw [List.foldl_cons, ih, hasToken_addDocument_iff]
    constructor
    · rintro ((h | h) | ⟨x, hx, hm⟩)
      · exact Or.inl h
      · exact Or.inr ⟨doc, List.mem_cons_self doc rest, h⟩
      · exact Or.inr ⟨x, List.mem_cons_of_mem doc hx, hm⟩
    · rintro (h | ⟨x, hx, hm⟩)
      · exact Or.inl (Or.inl h)
      · rcases List.mem_cons.mp hx with rfl | hx2
        · exact Or.inl (Or.inr hm)
        · exact Or.inr ⟨x, hx2, hm⟩

theorem hasToken_dictFromDocs (docs : List (List String)) (t : String) :
    hasToken (dictFromDocs docs) t = true ↔ ∃ doc ∈ docs, t ∈ doc := by
  rw [dictFromDocs, hasToken_foldl_iff]
  simp [hasToken]

theorem docfreq_eq_dfCount (docs : List (List String)) {e : DictEntry}
    (he : e ∈ dictFromDocs docs) : e.docfreq = dfCount docs e.token := by
  have h1 := entryFor_eq_self (dictFromDocs docs)
    (dictInv_dictFromDocs docs).2 he
  have h2 := dictDf_dictFromDocs docs e.token
  rw [dictDf, h1] at h2
  simpa using h2

theorem bool_eq_of_iff {a b : Bool} (h : a = true ↔ b = true) : a = b := by
  cases a <;> cases b <;> simp_all

theorem mem_filter_tokens (d : Dictionary) (bad : List Nat) (e : DictEntry) :
    e ∈ filter_tokens d bad ↔ e ∈ d ∧ e.id ∉ bad := by
  simp [filter_tokens, List.mem_filter]

theorem idsOf_filter_tokens_nodup (d : Dictionary) (bad : List Nat)
    (h : (idsOf d).Nodup) : (idsOf (filter_tokens d bad)).Nodup := by
  have hsub : List.Sublist (filter_tokens d bad) d := List.filter_sublist d
  exact List.Nodup.sublist (List.Sublist.map _ hsub) h

theorem tokensOf_compactify (d : Dictionary) :
    tokensOf (compactify d) = tokensOf d := by
  simp only [compactify, tokensOf, List.map_map]
  rfl

theorem hasToken_compactify (d : Dictionary) (t : String) :
    hasToken (compactify d) t = hasToken d t := by
  apply bool_eq_of_iff
  rw [hasToken_eq_mem_tokensOf, hasToken_eq_mem_tokensOf, tokensOf_compactify]

theorem length_compactify (d : Dictionary) :
    (compactify d).length = d.length := by
  simp [compactify]

theorem compactify_ids_perm (d : Dictionary) (h : (idsOf d).Nodup) :
    List.Perm (idsOf (compactify d)) (List.range d.length) := by
  have hids : idsOf (compactify d) =
      (idsOf d).map
        (fun i => idxOf i (sortLe (fun a b => decide (a ≤ b)) (idsOf d))) := by
    simp only [compactify, idsOf, List.map_map]
    rfl
  have hperm : List.Perm (sortLe (fun a b => decide (a ≤ b)) (idsOf d)) (idsOf d) :=
    sortLe_perm _ _
  have hnodups : (sortLe (fun a b => decide (a ≤ b)) (idsOf d)).Nodup :=
    hperm.symm.nodup h
  have hself := map_idxOf_self _ hnodups
  have hlen : (sortLe (fun a b => decide (a ≤ b)) (idsOf d)).length = d.length := by
    rw [hperm.length_eq]
    simp [idsOf]
  have hmapperm := (hperm.symm).map
    (fun i => idxOf i (sortLe (fun a b => decide (a ≤ b)) (idsOf d)))
  rw [hids, ← hlen, ← hself]
  exact hmapperm

theorem filter_compactify_ids_perm (D : Dictionary) (bad : List Nat)
    (h : (idsOf D).Nodup) :
    List.Perm (idsOf (compactify (filter_tokens D bad)))
      (List.range (compactify (filter_tokens D bad)).length) := by
  have hnd2 := idsOf_filter_tokens_nodup D bad h
  have hp := compactify_ids_perm _ hnd2
  rwa [length_compactify]

theorem idsOf_dictFromDocs_nodup (docs : List (List String)) :
    (idsOf (dictFromDocs docs)).Nodup := by
  rw [(dictInv_dictFromDocs docs).1]
  exact List.nodup_range _

theorem mem_map_id_filter (D : Dictionary) (hD : (idsOf D).Nodup)
    (q : DictEntry → Bool) {e : DictEntry} (he : e ∈ D) :
    e.id ∈ (D.filter q).map (fun x => x.id) ↔ q e = true := by
  constructor
  · intro h
    rw [List.mem_map] at h
    obtain ⟨x, hx, hxid⟩ := h
    rw [List.mem_filter] at hx
    have hxe : x = e := List.inj_on_of_nodup_map hD hx.1 he hxid
    rw [← hxe]
    exact hx.2
  · intro hq
    exact List.mem_map.mpr ⟨e, List.mem_filter.mpr ⟨he, hq⟩, rfl⟩

theorem hasToken_vocabulary_dict (docs : List (List String)) (mtf : Nat)
    (t : String) :
    hasToken (vocabulary_dict docs mtf) t = true ↔
      mtf < dfCount docs t ∧ matchAlphaUnderscore t = true := by
  have hidnd := idsOf_dictFromDocs_nodup docs
  simp only [vocabulary_dict]
  rw [hasToken_compactify, hasToken_iff]
  constructor
  · rintro ⟨e, he, het⟩
    rw [mem_filter_tokens] at he
    obtain ⟨heD, hbad⟩ := he
    rw [List.mem_append] at hbad
    push_neg at hbad
    obtain ⟨hlow, hnon⟩ := hbad
    have h1 : ¬ (decide (e.docfreq ≤ mtf) = true) := fun hq =>
      hlow ((mem_map_id_filter _ hidnd _ heD).mpr hq)
    have h2 : ¬ ((! matchAlphaUnderscore e.token) = true) := fun hq =>
      hnon ((mem_map_id_filter _ hidnd _ heD).mpr hq)
    have hgt : mtf < e.docfreq := by
      simp at h1
      omega
    have halpha : matchAlphaUnderscore e.token = true := by
      simpa using h2
    rw [docfreq_eq_dfCount docs heD, het] at hgt
    rw [het] at halpha
    exact ⟨hgt, halpha⟩
  · rintro ⟨hdf, halpha⟩
    have hpos : 0 < dfCount docs t := lt_of_le_of_lt (Nat.zero_le mtf) hdf
    have hex : ∃ doc ∈ docs, t ∈ doc := by
      rw [dfCount, List.length_pos_iff_exists_mem] at hpos
      obtain ⟨doc, hdm⟩ := hpos
      rw [List.mem_filter] at hdm
      exact ⟨doc, hdm.1, by simpa using hdm.2⟩
    have hht := (hasToken_dictFromDocs docs t).mpr hex
    rw [hasToken_iff] at hht
    obtain ⟨e, heD, het⟩ := hht
    refine ⟨e, ?_, het⟩
    rw [mem_filter_tokens]
    refine ⟨heD, ?_⟩
    rw [List.mem_append]
    push_neg
    constructor
    · intro hq
      have hle : e.docfreq ≤ mtf := by
        simpa using (mem_map_id_filter _ hidnd _ heD).mp hq
      rw [docfreq_eq_dfCount docs heD, het] at hle
      omega
    · intro hq
      have hfalse : matchAlphaUnderscore e.token = false := by
        simpa using (mem_map_id_filter _ hidnd _ heD).mp hq
      rw [het, halpha] at hfalse
      cases hfalse

theorem hasToken_vocabulary (tok : String → Except String (List String))
    (lines : List String) (mtf : Nat) (t : String) :
    hasToken (vocabulary tok lines mtf) t = true ↔
      mtf < dfCount (docStream tok lines) t ∧ matchAlphaUnderscore t = true := by
  rw [vocabulary]
  exact hasToken_vocabulary_dict _ _ _

theorem idsOf_vocabulary_dict_perm (docs : List (List String)) (mtf : Nat) :
    List.Perm (idsOf (vocabulary_dict docs mtf))
      (List.range (vocabulary_dict docs mtf).length) := by
  simp only [vocabulary_dict]
  exact filter_compactify_ids_perm _ _ (idsOf_dictFromDocs_nodup docs)

theorem idsOf_sub_vocabulary_perm (d : Dictionary) (l : List String)
    (hid : (idsOf d).Nodup) :
    List.Perm (idsOf (sub_vocabulary d l))
      (List.range (sub_vocabulary d l).length) := by
  simp only [sub_vocabulary]
  exact filter_compactify_ids_perm _ _ hid

theorem idsOf_sub_vocabulary_by_key_perm (d : Dictionary) (ks : List Nat)
    (hid : (idsOf d).Nodup) :
    List.Perm (idsOf (sub_vocabulary_by_key d ks))
      (List.range (sub_vocabulary_by_key d ks).length) := by
  simp only [sub_vocabulary_by_key]
  exact filter_compactify_ids_perm _ _ hid

theorem hasToken_sub_vocabulary_iff (d : Dictionary) (l : List String)
    (htok : (tokensOf d).Nodup) (hid : (idsOf d).Nodup) (t : String) :
    hasToken (sub_vocabulary d l) t = true ↔ hasToken d t = true ∧ t ∈ l := by
  simp only [sub_vocabulary]
  rw [hasToken_compactify, hasToken_iff]
  constructor
  · rintro ⟨e, he, het⟩
    rw [mem_filter_tokens] at he
    obtain ⟨heD, hbad⟩ := he
    have hin : e.token ∈ l := by
      by_contra hnot
      apply hbad
      have hrt : e.token ∈ (tokensOf d).filter (fun t2 => decide (t2 ∉ l)) := by
        rw [List.mem_filter]
        exact ⟨List.mem_map.mpr ⟨e, heD, rfl⟩, by simpa using hnot⟩
      have hti : token2id d e.token = e.id := by
        rw [token2id, entryFor_eq_self d htok heD]
        rfl
      exact List.mem_map.mpr ⟨e.token, hrt, hti⟩
    exact ⟨(hasToken_iff d t).mpr ⟨e, heD, het⟩, het ▸ hin⟩
  · rintro ⟨hht, hmem⟩
    rw [hasToken_iff] at hht
    obtain ⟨e, heD, het⟩ := hht
    refine ⟨e, ?_, het⟩
    rw [mem_filter_tokens]
    refine ⟨heD, ?_⟩
    intro hbad
    rw [List.mem_map] at hbad
    obtain ⟨t2, ht2, hti⟩ := hbad
    rw [List.mem_filter] at ht2
    obtain ⟨ht2mem, ht2not⟩ := ht2
    rw [List.mem_map] at ht2mem
    obtain ⟨e2, he2, he2t⟩ := ht2mem
    have hti2 : token2id d t2 = e2.id := by
      rw [← he2t, token2id, entryFor_eq_self d htok he2]
      rfl
    have heq : e2 = e := List.inj_on_of_nodup_map hid he2 heD (by rw [← hti2, hti])
    have hnotl : t2 ∉ l := by simpa using ht2not
    apply hnotl
    rw [← he2t, heq, het]
    exact hmem

/- ---------------------------------------------------------------------
   Lemmas about the tokenizer and the document stream.
   --------------------------------------------------------------------- -/

theorem foldl_append_eq_join {α β : Type} (f : α → List β) (l : List α) :
    ∀ init : List β,
      l.foldl (fun acc a => acc ++ f a) init = init ++ (l.map f).flatten := by
  induction l with
  | nil => intro init; simp
  | cons a as ih =>
    intro init
    rw [List.foldl_cons, ih, List.map_cons, List.flatten_cons, List.append_assoc]

theorem foldl_pair_join {α β : Type} (f : α → List β) (l : List α) :
    ∀ p : List β × List (List β), p.1 = p.2.flatten →
      (l.foldl (fun acc a => (acc.1 ++ f a, acc.2 ++ [f a])) p).1 =
        (l.foldl (fun acc a => (acc.1 ++ f a, acc.2 ++ [f a])) p).2.flatten := by
  induction l with
  | nil => intro p hp; exact hp
  | cons a as ih =>
    intro p hp
    rw [List.foldl_cons]
    apply ih
    rw [List.flatten_append, ← hp]
    simp

theorem string2tokens_flat_eq_join_sents (sentTok wordTok : String → List String)
    (stopwords : List String) (textString : String) (N : Nat)
    (padRight padLeft : Bool) (leftPadSymbol rightPadSymbol : String) :
    string2tokensFlat sentTok wordTok stopwords textString N padRight padLeft
        leftPadSymbol rightPadSymbol =
      (string2tokensSents sentTok wordTok stopwords textString N padRight padLeft
        leftPadSymbol rightPadSymbol).flatten := by
  rw [string2tokensFlat, string2tokensSents, string2tokensBoth]
  exact foldl_pair_join
    (fun sent => ngramExpandSentence (sentenceTokens wordTok stopwords sent) N
      padRight padLeft leftPadSymbol rightPadSymbol)
    (sentTok (stripStr (removeNewlines textString))) ([], []) rfl

theorem ngramExpandSentence_eq_join (tokens : List String) (N : Nat)
    (padRight padLeft : Bool) (leftPadSymbol rightPadSymbol : String) :
    ngramExpandSentence tokens N padRight padLeft leftPadSymbol rightPadSymbol =
      ((List.range' 1 N).map
        (fun n => (ngramsNltk tokens n padRight padLeft leftPadSymbol
          rightPadSymbol).map joinUnderscore)).flatten := by
  rw [ngramExpandSentence]
  rw [foldl_append_eq_join]
  rfl

theorem documentsIterAux_eq (tok : String → Except String (List String)) :
    ∀ (lines : List String) (c : Nat),
      documentsIterAux tok lines c =
        (lines.map (fun line =>
            match tok line with
            | Except.ok toks => toks
            | Except.error _ => []),
          (List.enumFrom c lines).filterMap (fun p =>
            match tok p.2 with
            | Except.ok _ => none
            | Except.error e => some (p.1, e))) := by
  intro lines
  induction lines with
  | nil => intro c; rfl
  | cons line rest ih =>
    intro c
    cases h : tok line with
    | ok toks =>
      simp only [documentsIterAux, h, ih (c + 1), List.map_cons, List.enumFrom,
        List.filterMap_cons]
    | error e =>
      simp only [documentsIterAux, h, ih (c + 1), List.map_cons, List.enumFrom,
        List.filterMap_cons]

/- ---------------------------------------------------------------------
   Claim theorems.
   --------------------------------------------------------------------- -/

/-- Claim C1: for every line of the source, the Document Stream never
propagates a tokenization failure to its consumer: the stream yields
exactly one document per input line in order — the token list when
tokenization succeeds and the empty list when it fails — and every
failure is logged together with the line's 0-based ordinal index. -/
theorem c1_stream_error_recovery (tok : String → Except String (List String))
    (lines : List String) :
    docStream tok lines = lines.map (fun line =>
      match tok line with
      | Except.ok toks => toks
      | Except.error _ => []) ∧
    docLog tok lines = lines.enum.filterMap (fun p =>
      match tok p.2 with
      | Except.ok _ => none
      | Except.error e => some (p.1, e)) ∧
    (docStream tok lines).length = lines.length := by
  have h := documentsIterAux_eq tok lines 0
  refine ⟨?_, ?_, ?_⟩
  · rw [docStream, documentsIter, h]
  · rw [docLog, documentsIter, h]
    rfl
  · rw [docStream, documentsIter, h]
    exact List.length_map lines _

/-- Claim C2: a token survives vocabulary construction only if its
document frequency is strictly greater than `min_term_freq` (pruning uses
less-or-equal); with `min_term_freq = 1` a term occurring in exactly one
document is absent from the resulting vocabulary, and a term occurring in
two documents survives provided it also passes the alphabetic filter. -/
theorem c2_min_term_freq_pruning (tok : String → Except String (List String))
    (lines : List String) (minTermFreq : Nat) (t : String) :
    (hasToken (vocabulary tok lines minTermFreq) t = true →
      minTermFreq < dfCount (docStream tok lines) t) ∧
    (dfCount (docStream tok lines) t = 1 →
      hasToken (vocabulary tok lines 1) t = false) ∧
    (dfCount (docStream tok lines) t = 2 → matchAlphaUnderscore t = true →
      hasToken (vocabulary tok lines 1) t = true) := by
  refine ⟨?_, ?_, ?_⟩
  · intro h
    exact ((hasToken_vocabulary tok lines minTermFreq t).mp h).1
  · intro h
    cases hc : hasToken (vocabulary tok lines 1) t
    · rfl
    · have := ((hasToken_vocabulary tok lines 1 t).mp hc).1
      omega
  · intro h ha
    exact (hasToken_vocabulary tok lines 1 t).mpr ⟨by omega, ha⟩

/-- Claim C2 witness: in the source `["aa", "aa", "bb"]` (each line its
own token) the term `"aa"` has document frequency 2 and survives building
with `min_term_freq = 1`. -/
theorem c2_witness :
    hasToken (vocabulary (fun l => Except.ok [l]) ["aa", "aa", "bb"] 1) "aa" =
      true :=
  (c2_min_term_freq_pruning (fun l => Except.ok [l]) ["aa", "aa", "bb"] 1
    "aa").2.2 (by decide) (by decide)

/-- Claim C3: after building or sub-filtering, the multiset of term ids
is exactly `{0, 1, ..., k - 1}` where `k` is the number of surviving
entries: ids are contiguous, with no gaps and no duplicates. -/
theorem c3_ids_contiguous (tok : String → Except String (List String))
    (lines : List String) (minTermFreq : Nat) (d : Dictionary)
    (l : List String) (ks : List Nat) (hid : (idsOf d).Nodup) :
    List.Perm (idsOf (vocabulary tok lines minTermFreq))
      (List.range (vocabulary tok lines minTermFreq).length) ∧
    List.Perm (idsOf (sub_vocabulary d l))
      (List.range (sub_vocabulary d l).length) ∧
    List.Perm (idsOf (sub_vocabulary_by_key d ks))
      (List.range (sub_vocabulary_by_key d ks).length) := by
  refine ⟨?_, idsOf_sub_vocabulary_perm d l hid,
    idsOf_sub_vocabulary_by_key_perm d ks hid⟩
  rw [vocabulary]
  exact idsOf_vocabulary_dict_perm _ _

/-- Claim C3 witness: sub-filtering a concrete two-entry dictionary by
the allow-list `["aa"]` yields ids forming an initial segment. -/
theorem c3_witness :
    List.Perm
      (idsOf (sub_vocabulary [DictEntry.mk "aa" 0 2, DictEntry.mk "bb" 1 2]
        ["aa"]))
      (List.range (sub_vocabulary [DictEntry.mk "aa" 0 2, DictEntry.mk "bb" 1 2]
        ["aa"]).length) :=
  (c3_ids_contiguous (fun l => Except.ok [l]) ["aa"] 1
    [DictEntry.mk "aa" 0 2, DictEntry.mk "bb" 1 2] ["aa"] [0] (by decide)).2.1

/-- Claim C4: a token whose surface form is not entirely ASCII letters
and underscore never appears in a built vocabulary, for any source and
any frequency threshold. -/
theorem c4_nonalpha_never_in_vocabulary
    (tok : String → Except String (List String)) (lines : List String)
    (minTermFreq : Nat) (t : String) (h : matchAlphaUnderscore t = false) :
    hasToken (vocabulary tok lines minTermFreq) t = false := by
  cases hc : hasToken (vocabulary tok lines minTermFreq) t
  · rfl
  · have := ((hasToken_vocabulary tok lines minTermFreq t).mp hc).2
    rw [h] at this
    cases this

/-- Claim C4 witness: the token `"co2"` occurs in two documents yet is
absent from the built vocabulary. -/
theorem c4_witness :
    hasToken (vocabulary (fun l => Except.ok [l]) ["co2", "co2"] 1) "co2" =
      false :=
  c4_nonalpha_never_in_vocabulary (fun l => Except.ok [l]) ["co2", "co2"] 1
    "co2" (by decide)

/-- Claim C5 counterexample: the Sub-Vocabulary Filter does not leave the
input vocabulary unchanged — after filtering the two-entry dictionary
`[aa ↦ 0, bb ↦ 1]` by the allow-list `["aa"]`, the caller's dictionary
object no longer equals its original value, because `filter_tokens` and
`compactify` mutate it in place. -/
theorem c5_counterexample :
    ¬ ((sub_vocabulary_st [DictEntry.mk "aa" 0 2, DictEntry.mk "bb" 1 2]
        ["aa"]).1 = [DictEntry.mk "aa" 0 2, DictEntry.mk "bb" 1 2]) := by
  decide

/-- Claim C5 (amended): the Sub-Vocabulary Filter produces the smaller
vocabulary containing exactly the allowed terms with compacted ids, but
it mutates the given vocabulary in place and returns that same object:
after the call the input equals the result, not its original value. -/
theorem c5_subvocab_mutates_in_place (d : Dictionary) (l : List String)
    (htok : (tokensOf d).Nodup) (hid : (idsOf d).Nodup) :
    (sub_vocabulary_st d l).1 = (sub_vocabulary_st d l).2 ∧
    (∀ t, hasToken (sub_vocabulary_st d l).2 t = true ↔
      hasToken d t = true ∧ t ∈ l) := by
  refine ⟨rfl, ?_⟩
  intro t
  exact hasToken_sub_vocabulary_iff d l htok hid t

/-- Claim C5 witness: the amended statement at the concrete two-entry
dictionary. -/
theorem c5_witness :
    (sub_vocabulary_st [DictEntry.mk "aa" 0 2, DictEntry.mk "bb" 1 2]
        ["aa"]).1 =
      (sub_vocabulary_st [DictEntry.mk "aa" 0 2, DictEntry.mk "bb" 1 2]
        ["aa"]).2 :=
  (c5_subvocab_mutates_in_place [DictEntry.mk "aa" 0 2, DictEntry.mk "bb" 1 2]
    ["aa"] (by decide) (by decide)).1

/-- Claim C6: the merge-by-ID utility does not return the deduplicated
id list and merged corpus — the summation/merge steps of
`merge_documents` are commented out and the function falls off its end,
returning Python's `None` on every input (here shown in particular at the
two-document corpus `[[(0,1)],[(0,2)]]` with ids `[1, 0]`, among all
inputs), contradicting its own docstring. -/
theorem c6_merge_documents_returns_none (corpus : List (List (Nat × Nat)))
    (dictionary : Dictionary) (docsIds : List Int) :
    merge_documents corpus dictionary docsIds = none := rfl

/-- Claim C7: per sentence, the tokenizer emits the n-grams of each gram
order from 1 up to N concatenated in increasing gram order, each n-gram
joined with an underscore; in particular for the sentence tokens
`["quick", "fox"]` with `N = 2` and no padding the expansion is
`["quick", "fox", "quick_fox"]`. -/
theorem c7_ngram_orders_concatenated :
    (∀ (tokens : List String) (N : Nat) (padRight padLeft : Bool)
      (lps rps : String),
      ngramExpandSentence tokens N padRight padLeft lps rps =
        ((List.range' 1 N).map (fun n =>
          (ngramsNltk tokens n padRight padLeft lps rps).map
            joinUnderscore)).flatten) ∧
    ngramExpandSentence ["quick", "fox"] 2 false false "" "" =
      ["quick", "fox", "quick_fox"] := by
  refine ⟨?_, by decide⟩
  intro tokens N padRight padLeft lps rps
  exact ngramExpandSentence_eq_join tokens N padRight padLeft lps rps

/-- Claim C8: tokenizing the line `"The quick fox. The lazy dog."` with
`N = 1` and default English stopword removal returns exactly
`["quick", "fox", "lazy", "dog"]`: punctuation stripped, lowercased,
stopwords removed, order preserved across both sentences. -/
theorem c8_concrete_tokenization :
    string2tokensFlat sentTokenizeModel wordTokenizeModel englishStopwords
      "The quick fox. The lazy dog." 1 false false "" "" =
      ["quick", "fox", "lazy", "dog"] := by
  decide

/-- Claim C9: the histogram routine cannot return the empty result set on
a degenerate corpus — the module is Python 3 yet line 269 calls the
Python-2-only `dict.iteritems`, so `corpus_histogram` raises
`AttributeError` on every input (in particular on a corpus whose only
term appears in a single document) instead of returning empty results. -/
theorem c9_histogram_always_raises (corpus : List (List (Nat × Int)))
    (dictionary : Dictionary) (sortBy : String) (N : Nat) :
    corpus_histogram corpus dictionary sortBy N =
      Except.error
        "AttributeError: defaultdict object has no attribute iteritems" := rfl

/-- Claim C10: tokenizing with sentence structure kept and flattening the
per-sentence lists in sentence order agrees exactly with flat
tokenization, for every input string, gram order and padding
configuration. -/
theorem c10_flat_eq_flattened_sents (sentTok wordTok : String → List String)
    (stopwords : List String) (textString : String) (N : Nat)
    (padRight padLeft : Bool) (lps rps : String) :
    (string2tokensSents sentTok wordTok stopwords textString N padRight padLeft
      lps rps).flatten =
    string2tokensFlat sentTok wordTok stopwords textString N padRight padLeft
      lps rps :=
  (string2tokens_flat_eq_join_sents sentTok wordTok stopwords textString N
    padRight padLeft lps rps).symm

end TextUtils
